import Mathlib

/-!
Shallow embedding of the intent-routing and streaming-orchestration pipeline
of the ai-chatbot repository (TypeScript), together with proofs of the
spec's testable properties.

Conventions of the embedding:
* JavaScript strings become Lean `String`; `Array.prototype.join`,
  `String.prototype.trim`, `String.prototype.toLowerCase` and
  `String.prototype.includes` are embedded below as `joinWith`, `jsTrim`,
  `jsToLower` and `containsSub` with JS semantics.
* Fallible external collaborators (the language-model invocation and the
  PDF text-extraction collaborator) are passed in as functions returning
  `Except Unit _`; a thrown exception is the `Except.error` case, caught
  exactly where the source has a `try`/`catch`.
* Functions whose claims speak about "no model call" are instrumented:
  they return their result paired with a `Nat` counting how many times the
  model-invocation collaborator was entered.
* TypeScript numbers used for scores are embedded as `ℚ` (all arithmetic
  in the scoring tool is exact in halves and tenths); years are `ℤ`.
-/

namespace Chatbot

/-! ### JS string primitives -/

/-- Embedding of `Array.prototype.join(sep)` for string arrays. -/
def joinWith (sep : String) : List String → String
  | [] => ""
  | [x] => x
  | x :: y :: xs => x ++ sep ++ joinWith sep (y :: xs)

/-- Embedding of `String.prototype.trim`: strip whitespace from both ends. -/
def jsTrim (s : String) : String :=
  String.mk (((s.data.dropWhile Char.isWhitespace).reverse.dropWhile
    Char.isWhitespace).reverse)

/-- Embedding of `String.prototype.toLowerCase` (ASCII case folding). -/
def jsToLower (s : String) : String :=
  String.mk (s.data.map Char.toLower)

/-- Helper for `containsSub`: does the first list start the second one? -/
def startsWithList : List Char → List Char → Bool
  | [], _ => true
  | _ :: _, [] => false
  | a :: as, b :: bs => a == b && startsWithList as bs

/-- Helper for `containsSub`, searching every suffix of the haystack. -/
def containsSubList (hay sub : List Char) : Bool :=
  startsWithList sub hay ||
    match hay with
    | [] => false
    | _ :: t => containsSubList t sub

/-- Embedding of `String.prototype.includes(sub)`. -/
def containsSub (s sub : String) : Bool :=
  containsSubList s.data sub.data

/-! ### Data model (lib/types: `ChatMessage` and its parts) -/

/-- Message `Part` variant: `text`, `file` (url, mediaType, optional
filename), or a tool invocation part. Mirrors the `Part` union of the
`ChatMessage` type used throughout the agent code. -/
inductive MessagePart where
  | text (content : String)
  | file (url : String) (mediaType : String) (filename : Option String)
  | toolInvocation (toolName : String) (resolved : Bool)
  deriving Repr, DecidableEq

/-- A chat message: externally supplied stable `id`, `role`
("user"/"assistant"/"system"), ordered `parts`, plus a `metadata` field
standing for every other field carried by the source type (used to state
the frame property of the attachment pre-processor). -/
structure ChatMessage where
  id : String
  role : String
  parts : List MessagePart
  metadata : Option String := none
  deriving Repr, DecidableEq

/-- Embedding of the repeated source idiom
`parts.filter(p => p.type === "text").map(p => "text" in p ? p.text : "").join(" ")`. -/
def textOfParts (parts : List MessagePart) : String :=
  joinWith " "
    ((parts.filter fun p => match p with | .text _ => true | _ => false).map
      fun p => match p with | .text t => t | _ => "")

/-- Embedding of `messages.filter((m) => m.role === "user").slice(-1)[0]`. -/
def latestUserMessage? (messages : List ChatMessage) : Option ChatMessage :=
  (messages.filter fun m => m.role == "user").getLast?

/-! ### PDF extraction data (lib/pdf/extract) -/

/-- Result type of the text-extraction collaborator
(`extractPDFFromUrl`): extracted text plus light metadata, as in the
source type `PDFContent`. -/
structure PDFContent where
  text : String
  numPages : Nat
  title : Option String := none
  author : Option String := none
  deriving Repr, DecidableEq

/-- A text-extraction collaborator: maps a part's URL to extracted
content, or to `Except.error` when the source `extractPDFFromUrl` throws. -/
abbrev PDFExtractor := String → Except Unit PDFContent

/-- Header lines pushed by `formatPDFForAI` before the page count: the
document header and the optional title/author lines (a JS truthiness
check skips absent and empty strings). -/
def pdfHeaderLines (content : PDFContent) (filename : String) : List String :=
  ["[PDF Document: " ++ filename ++ "]"]
    ++ (match content.title with
        | some t => if t == "" then [] else ["Title: " ++ t]
        | none => [])
    ++ (match content.author with
        | some a => if a == "" then [] else ["Author: " ++ a]
        | none => [])

/-- Embedding of `formatPDFForAI(content, filename)` from
lib/pdf/extract: header and metadata lines, page count, then the content
between delimiter lines, joined with newlines. -/
def formatPDFForAI (content : PDFContent) (filename : String) : String :=
  joinWith "\n"
    (pdfHeaderLines content filename ++
      ["Pages: " ++ toString content.numPages, "", "--- Content ---",
        content.text, "--- End of PDF ---"])

/-- Default used by the source when a file part has no (truthy)
`filename`: the literal `"document.pdf"`. -/
def filenameOrDefault : Option String → String
  | some f => if f == "" then "document.pdf" else f
  | none => "document.pdf"

/-- Placeholder text pushed by `processMessagesWithPDF` when extraction
throws. -/
def pdfFailurePlaceholder (filename : String) : String :=
  "[PDF Document: " ++ filename ++ "] (Unable to extract content)"

/-- Test used by the source guard
`part.type === "file" && "mediaType" in part && part.mediaType === "application/pdf"`. -/
def isPDFFilePart : MessagePart → Bool
  | .file _ mediaType _ => mediaType == "application/pdf"
  | _ => false

/-- Per-part body of the loop of `processMessagesWithPDF`
(lib/ai/agent/common): a PDF file part becomes a text part holding the
formatted extraction (or the failure placeholder when the collaborator
throws); every other part is pushed unchanged. -/
def processPart (extract : PDFExtractor) : MessagePart → MessagePart
  | .file url mediaType filename =>
    if mediaType == "application/pdf" then
      match extract url with
      | .ok content => .text (formatPDFForAI content (filenameOrDefault filename))
      | .error _ => .text (pdfFailurePlaceholder (filenameOrDefault filename))
    else .file url mediaType filename
  | p => p

/-- Embedding of `processMessagesWithPDF(messages)`: every message is
rebuilt with the same fields and its parts processed in order. -/
def processMessagesWithPDF (extract : PDFExtractor)
    (messages : List ChatMessage) : List ChatMessage :=
  messages.map fun m => { m with parts := m.parts.map (processPart extract) }

/-! ### Intent classification (lib/ai/agent/classify and the LangGraph
classify node) -/

/-- Return type of `classifyUserIntent`: the zod schema has a required
`intent` and an optional `confidence`, so a result with no confidence is
representable and distinct from any numeric confidence. -/
structure UserIntent where
  intent : String
  confidence : Option ℚ := none
  deriving Repr, DecidableEq

/-- One content item of an assistant message in the model reply consumed
by `classifyUserIntent`: a bare string, a tool call (with its parsed
arguments), or anything else. -/
inductive AssistantContentItem where
  | str (s : String)
  | toolCall (toolName : String) (args : UserIntent)
  | otherContent
  deriving Repr, DecidableEq

/-- A message of the model reply (`response.messages`). -/
structure ResponseMessage where
  role : String
  content : List AssistantContentItem
  deriving Repr, DecidableEq

/-- The model-invocation collaborator as seen by `classifyUserIntent`:
given the extracted user text it either throws (`error`) or yields the
reply messages. -/
abbrev ClassifierLLM := String → Except Unit (List ResponseMessage)

/-- Scan of one assistant message's content for a
`classifyIntent` tool call, as in the inner loop of `classifyUserIntent`. -/
def findToolCallInContent : List AssistantContentItem → Option UserIntent
  | [] => none
  | .toolCall n args :: rest =>
    if n == "classifyIntent" then some args else findToolCallInContent rest
  | _ :: rest => findToolCallInContent rest

/-- Scan of the reply messages for the first `classifyIntent` tool call
issued by an assistant message (outer loop of `classifyUserIntent`). -/
def findClassifyToolCall : List ResponseMessage → Option UserIntent
  | [] => none
  | m :: rest =>
    if m.role == "assistant" then
      match findToolCallInContent m.content with
      | some u => some u
      | none => findClassifyToolCall rest
    else findClassifyToolCall rest

/-- Outcome of a classification run: the returned intent object and the
number of model-invocation calls made. -/
structure ClassifyOutcome where
  result : UserIntent
  modelCalls : Nat
  deriving Repr, DecidableEq

/-- Embedding of `classifyUserIntent(messages, selectedChatModel)` from
lib/ai/agent/classify. With no user message, or an all-whitespace text
concatenation, it returns `{ intent: "others" }` (note: no confidence
field) without touching the model. Otherwise it calls the model once; a
thrown error yields `{ intent: "related_topics" }`, a reply without a
`classifyIntent` tool call yields `{ intent: "others" }`, and a found
tool call is returned as-is. -/
def classifyUserIntent (llm : ClassifierLLM)
    (messages : List ChatMessage) : ClassifyOutcome :=
  match latestUserMessage? messages with
  | none => ⟨{ intent := "others" }, 0⟩
  | some latest =>
    let userText := textOfParts latest.parts
    if jsTrim userText == "" then ⟨{ intent := "others" }, 0⟩
    else
      match llm userText with
      | .error _ => ⟨{ intent := "related_topics" }, 1⟩
      | .ok replyMessages =>
        match findClassifyToolCall replyMessages with
        | some u => ⟨u, 1⟩
        | none => ⟨{ intent := "others" }, 1⟩

/-- The LangGraph agent state (langgraph/state): messages, selected
model, classification results and content-detection flags, with the
annotated defaults. -/
structure AgentState where
  messages : List ChatMessage
  selectedModel : String := "deepseek/deepseek-chat"
  intent : Option String := none
  confidence : ℚ := 0
  hasPDF : Bool := false
  hasResumeContent : Bool := false
  response : String := ""
  reasoning : Option String := none
  deriving Repr, DecidableEq

/-- A node's return value, mirroring the TypeScript
`Partial<AgentStateType>`: only the fields the node sets are present. -/
structure AgentStateUpdate where
  intent : Option String := none
  confidence : Option ℚ := none
  hasPDF : Option Bool := none
  hasResumeContent : Option Bool := none
  response : Option String := none
  deriving Repr, DecidableEq

/-- What the regex-and-JSON-parse pipeline of `classifyNode` recovers
from the model reply content: the parsed `intent` string and the
optional `confidence` number. -/
structure ParsedIntent where
  intent : String
  confidence : Option ℚ := none
  deriving Repr, DecidableEq

/-- The model-invocation collaborator as seen by `classifyNode`: given
the user text it either throws, or yields the outcome of matching the
reply against the JSON regex and parsing it (`none` when no JSON object
with an "intent" key could be recovered). -/
abbrev NodeLLM := String → Except Unit (Option ParsedIntent)

/-- Check of the classify node for PDF attachments anywhere in the
message list. -/
def messagesHavePDF (messages : List ChatMessage) : Bool :=
  messages.any fun m => m.parts.any isPDFFilePart

/-- Resume-content heuristic shared (verbatim, in two copies) by
`hasResumeContent` in lib/ai/agent/resume-opt and the inline check of
the LangGraph classify node: some user message whose concatenated text
parts exceed 50 characters. -/
def hasResumeContent (messages : List ChatMessage) : Bool :=
  (messages.filter fun m => m.role == "user").any fun m =>
    (textOfParts m.parts).length > 50

/-- Embedding of the LangGraph `classifyNode(state)` (langgraph/nodes),
instrumented with the model-call count. Empty/absent user text returns
`others` with confidence 1 and no model call; a model error or an
unparseable reply falls back to `related_topics` with confidence 0.5;
a parsed reply is returned with `confidence ?? 0.8`. -/
def classifyNode (llm : NodeLLM) (state : AgentState) :
    AgentStateUpdate × Nat :=
  match latestUserMessage? state.messages with
  | none => ({ intent := some "others", confidence := some 1 }, 0)
  | some latest =>
    let userText := textOfParts latest.parts
    if jsTrim userText == "" then
      ({ intent := some "others", confidence := some 1 }, 0)
    else
      let hasPDF := messagesHavePDF state.messages
      let hasResume := hasResumeContent state.messages
      match llm userText with
      | .error _ =>
        ({ intent := some "related_topics", confidence := some (1/2),
           hasPDF := some hasPDF, hasResumeContent := some hasResume }, 1)
      | .ok none =>
        ({ intent := some "related_topics", confidence := some (1/2),
           hasPDF := some hasPDF, hasResumeContent := some hasResume }, 1)
      | .ok (some parsed) =>
        ({ intent := some parsed.intent,
           confidence := some (parsed.confidence.getD (4/5)),
           hasPDF := some hasPDF, hasResumeContent := some hasResume }, 1)

/-! ### Routing (LangGraph `routeByIntent` and the legacy dispatch in
`createChatStream`) -/

/-- Embedding of `routeByIntent(state)` (langgraph/nodes): a switch on
the state's intent with cases for `resume_opt` and `mock_interview`,
while `related_topics`, `others`, `null` and every unrecognized label
fall through to the default `"chat"` branch. -/
def routeByIntent (state : AgentState) : String :=
  match state.intent with
  | some s =>
    if s == "resume_opt" then "resumeOpt"
    else if s == "mock_interview" then "mockInterview"
    else "chat"
  | none => "chat"

/-- Embedding of the legacy if/else dispatch inside
`createChatStream` (lib/ai/agent/index): the selected execute function,
named by the source function it calls. -/
def legacyRouteByIntent (userIntent : UserIntent) : String :=
  if userIntent.intent == "resume_opt" then "executeResumeOptStream"
  else if userIntent.intent == "mock_interview" then "executeMockInterviewStream"
  else "executeStreamText"

/-! ### Resume-optimization generators (lib/ai/agent/resume-opt and the
LangGraph resume node) -/

/-- One message of a conversation handed to the model-invocation
collaborator (role plus flattened text content). -/
structure SimpleMsg where
  role : String
  content : String
  deriving Repr, DecidableEq

/-- Record of the single `streamText` invocation issued by
`executeResumeOptStream`: the conversation passed to the model and
whether the `evaluateSkills` tool was bound. The fixed system prompt is
configuration and is not recorded. -/
structure ModelCall where
  convo : List SimpleMsg
  toolsBound : Bool
  deriving Repr, DecidableEq

/-- Scripted assistant reply primed into the model context by
`executeResumeOptStream` when no resume content is detected
(lib/ai/agent/resume-opt, the no-resume branch). -/
def scriptedResumeReplyCN : String :=
  "你好！我是专业的简历优化顾问，很高兴帮你优化技术简历。\n\n为了给你提供最有针对性的建议，请把你的简历内容发给我。你可以直接粘贴简历文本，或者上传PDF格式的简历，我会帮你：\n\n1. 优化项目经历的描述方式\n2. 突出技术亮点和核心贡献\n3. 用量化数据展示你的成果\n4. 调整技术栈的呈现方式\n5. 提供具体的优化建议\n\n请发送你的简历内容吧！"

/-- Embedding of `executeResumeOptStream(messages, selectedChatModel,
dataStream)`: after PDF pre-processing, either branch invokes
`streamText` exactly once (instrumented by the second component). The
no-resume branch does not short-circuit; it primes a scripted exchange
(ending with the last user text) and still calls the model, without the
skills tool. The resume branch passes the flattened conversation with
the `evaluateSkills` tool bound. -/
def executeResumeOptStream (extract : PDFExtractor)
    (messages : List ChatMessage) : ModelCall × Nat :=
  let processedMessages := processMessagesWithPDF extract messages
  let hasResume := hasResumeContent processedMessages
  if !hasResume then
    (⟨[⟨"user", "我想优化简历"⟩,
       ⟨"assistant", scriptedResumeReplyCN⟩,
       ⟨"user",
        match processedMessages.getLast? with
        | some m => textOfParts m.parts
        | none => ""⟩],
      false⟩, 1)
  else
    (⟨processedMessages.map fun m => ⟨m.role, textOfParts m.parts⟩, true⟩, 1)

/-- Scripted response returned directly (no model call) by the LangGraph
`resumeOptNode` when the state says no resume content is present
(langgraph/nodes). -/
def scriptedResumeReplyEN : String :=
  "Hello! I\x27m a professional resume optimization consultant, happy to help you optimize your technical resume.\n\nTo provide targeted suggestions, please share your resume content. You can paste the resume text or upload a PDF file. I will help you:\n\n1. Optimize project experience descriptions\n2. Highlight technical highlights and core contributions\n3. Use quantified data to showcase your achievements\n4. Adjust tech stack presentation\n5. Provide specific optimization suggestions\n\nPlease send your resume content!"

/-- The model-invocation collaborator as seen by the LangGraph nodes:
`llm.invoke` on a LangChain message list, yielding the reply content or
throwing. -/
abbrev InvokeLLM := List SimpleMsg → Except Unit String

/-- Embedding of the LangGraph `resumeOptNode(state)` (langgraph/nodes),
instrumented with the model-call count. Messages are PDF-processed and
flattened to LangChain human/ai messages; if the state's
`hasResumeContent` flag is false the node returns the scripted reply
without invoking the model; otherwise it invokes the model once, and a
thrown error is caught and becomes an apology response. -/
def resumeOptNode (extract : PDFExtractor) (llm : InvokeLLM)
    (state : AgentState) : AgentStateUpdate × Nat :=
  let processedMessages := processMessagesWithPDF extract state.messages
  let langchainMessages : List SimpleMsg :=
    processedMessages.map fun m =>
      ⟨if m.role == "user" then "human" else "ai", textOfParts m.parts⟩
  if !state.hasResumeContent then
    ({ response := some scriptedResumeReplyEN }, 0)
  else
    match llm langchainMessages with
    | .ok content => ({ response := some content }, 1)
    | .error _ =>
      ({ response := some "Sorry, an error occurred while processing your resume. Please try again." }, 1)

/-! ### Skill-scoring tool (lib/ai/tools/evaluate-skills) -/

/-- Result object of `evaluateSkillsTool.execute`. -/
structure SkillEvaluation where
  score : ℚ
  yearsOfExperience : ℤ
  skillCount : ℤ
  expectedSkillCount : ℤ
  summary : String
  suggestions : List String
  deriving Repr, DecidableEq

/-- Modern-tech keyword list of the skills tool. -/
def modernTech : List String :=
  ["React", "Vue", "TypeScript", "Next.js", "Tailwind", "Node.js", "GraphQL"]

/-- Embedding of `evaluateSkillsTool.execute({graduationYear, skills})`.
The ambient `new Date().getFullYear()` is the explicit `currentYear`
parameter. Score starts at 5 and gains points for skill count versus the
experience-derived expectation, for seniority, for avoiding weak
wording, and for a modern stack; it is then clamped to [5, 10] and
rounded to one decimal place exactly as `Math.round(score * 10) / 10`. -/
def evaluateSkills (currentYear graduationYear : ℤ)
    (skills : List String) : SkillEvaluation :=
  let yearsOfExperience : ℤ := max 0 (currentYear - graduationYear)
  let expectedSkillCount : ℤ := min 15 (5 + yearsOfExperience * 2)
  let skillCount : ℤ := skills.length
  let countScore : ℚ :=
    if skillCount ≥ expectedSkillCount then 2
    else if (skillCount : ℚ) ≥ (expectedSkillCount : ℚ) * (7/10) then 1
    else 0
  let countSuggestions : List String :=
    if skillCount ≥ expectedSkillCount then []
    else if (skillCount : ℚ) ≥ (expectedSkillCount : ℚ) * (7/10) then
      ["建议增加技能数量至 " ++ toString expectedSkillCount ++ " 个左右，体现技术广度"]
    else
      ["技能数量偏少，建议增加到 " ++ toString expectedSkillCount ++ " 个左右"]
  let depthScore : ℚ :=
    if yearsOfExperience ≥ 3 then 2
    else if yearsOfExperience ≥ 1 then 3/2
    else 1
  let depthSuggestions : List String :=
    if yearsOfExperience ≥ 3 then
      ["作为有 " ++ toString yearsOfExperience ++ " 年经验的开发者，建议将核心技能标注为\x27精通\x27或\x27熟练\x27"]
    else if yearsOfExperience ≥ 1 then
      ["建议将常用技能标注为\x27熟练\x27，突出实战经验"]
    else
      ["应届生可适当标注\x27熟悉\x27，避免使用\x27了解\x27"]
  let hasWeakTerms :=
    skills.any fun skill =>
      containsSub skill "了解" || containsSub (jsToLower skill) "understand"
  let weakScore : ℚ := if !hasWeakTerms then 1/2 else 0
  let weakSuggestions : List String :=
    if !hasWeakTerms then []
    else ["避免使用\x27了解xx技术\x27，改为\x27熟悉xx技术\x27或直接删除"]
  let hasModernTech :=
    skills.any fun skill => modernTech.any fun tech => containsSub skill tech
  let modernScore : ℚ := if hasModernTech then 1/2 else 0
  let modernSuggestions : List String :=
    if hasModernTech then []
    else ["建议增加现代前端技术栈（如 React、Vue、TypeScript 等）"]
  let score : ℚ :=
    min 10 (max 5 (5 + countScore + depthScore + weakScore + modernScore))
  let summary : String :=
    if score ≥ 9 then "技能列表优秀！"
    else if score ≥ 15/2 then "技能列表良好，稍作优化会更好。"
    else if score ≥ 6 then "技能列表合格，但有较大优化空间。"
    else "技能列表需要较大幅度优化。"
  { score := (round (score * 10) : ℚ) / 10
    yearsOfExperience := yearsOfExperience
    skillCount := skillCount
    expectedSkillCount := expectedSkillCount
    summary := summary
    suggestions :=
      countSuggestions ++ depthSuggestions ++ weakSuggestions ++ modernSuggestions }

/-! ### Finalize/persist reconciler (handleFinishedMessages in
lib/ai/agent/common) -/

/-- A persisted message row (the server-assigned `createdAt` timestamp
and the constant empty `attachments` array are not modelled). -/
structure DbRow where
  id : String
  role : String
  parts : List MessagePart
  chatId : String
  deriving Repr, DecidableEq

/-- Storage-collaborator operations issued by the reconciler:
`saveMessages` (a batch insert) and `updateMessage` (patch of one row's
parts by id). -/
inductive DbOp where
  | insertRows (rows : List DbRow)
  | updateParts (id : String) (parts : List MessagePart)
  deriving Repr, DecidableEq

/-- Row built by `handleFinishedMessages` for an insert. -/
def dbRowOf (chatId : String) (m : ChatMessage) : DbRow :=
  { id := m.id, role := m.role, parts := m.parts, chatId := chatId }

/-- Embedding of `handleFinishedMessages({finishedMessages, uiMessages,
chatId, isToolApprovalFlow})` as the list of storage operations it
issues, in order. In tool-approval mode each finished message is looked
up by id in the turn's input history and becomes one update (when found)
or one single-row insert; in normal mode a nonempty batch is inserted in
one call. -/
def handleFinishedMessages (finishedMessages uiMessages : List ChatMessage)
    (chatId : String) (isToolApprovalFlow : Bool) : List DbOp :=
  if isToolApprovalFlow then
    finishedMessages.map fun finishedMsg =>
      match uiMessages.find? (fun m => m.id == finishedMsg.id) with
      | some _ => DbOp.updateParts finishedMsg.id finishedMsg.parts
      | none => DbOp.insertRows [dbRowOf chatId finishedMsg]
  else if finishedMessages.length > 0 then
    [DbOp.insertRows (finishedMessages.map (dbRowOf chatId))]
  else []

/-- Semantics of one storage operation on the message table:
`saveMessages` appends rows, `updateMessage` patches the parts of every
row carrying the id. -/
def applyOp (db : List DbRow) : DbOp → List DbRow
  | .insertRows rows => db ++ rows
  | .updateParts msgId parts =>
    db.map fun r => if r.id == msgId then { r with parts := parts } else r

/-- Apply a list of storage operations in order. -/
def applyOps (db : List DbRow) (ops : List DbOp) : List DbRow :=
  ops.foldl applyOp db

/-! ### Concrete collaborators and inputs used to witness the theorems -/

/-- A classifier collaborator that always throws. -/
def errClassifierLLM : ClassifierLLM := fun _ => Except.error ()

/-- A classifier collaborator whose reply holds no tool call. -/
def emptyReplyLLM : ClassifierLLM := fun _ => Except.ok []

/-- A LangGraph-node collaborator that always throws. -/
def errNodeLLM : NodeLLM := fun _ => Except.error ()

/-- A LangGraph-node collaborator whose reply cannot be parsed. -/
def noParseNodeLLM : NodeLLM := fun _ => Except.ok none

/-- A LangGraph-node collaborator returning a parsed classification. -/
def okNodeLLM : NodeLLM :=
  fun _ => Except.ok (some { intent := "resume_opt", confidence := some (9/10) })

/-- An invoke collaborator returning a fixed reply. -/
def okInvokeLLM : InvokeLLM := fun _ => Except.ok "model reply"

/-- A text-extraction collaborator that always throws. -/
def errExtractor : PDFExtractor := fun _ => Except.error ()

/-- A text-extraction collaborator that always succeeds. -/
def okExtractor : PDFExtractor :=
  fun _ => Except.ok { text := "EXTRACTED RESUME TEXT", numPages := 1 }

/-- A short user message ("please optimize my resume", 6 characters). -/
def shortResumeMsg : ChatMessage :=
  { id := "m1", role := "user", parts := [.text "帮我优化简历"] }

/-- A plain short user message. -/
def helloMsg : ChatMessage :=
  { id := "m2", role := "user", parts := [.text "hello"] }

/-- A user message carrying one PDF file part. -/
def pdfMsg : ChatMessage :=
  { id := "m3", role := "user",
    parts := [.file "https://x/cv.pdf" "application/pdf" (some "cv.pdf")] }

/-- An assistant message used to exercise the reconciler round-trip. -/
def assistantMsg : ChatMessage :=
  { id := "a1", role := "assistant",
    parts := [.text "draft", .toolInvocation "getWeather" false] }

/-- The replayed parts of `assistantMsg` after tool approval. -/
def resolvedParts : List MessagePart :=
  [.text "draft", .toolInvocation "getWeather" true]

/-! ### Helper lemmas -/

/-- A joined list starts with its first element. -/
theorem joinWith_cons_decomp (sep y : String) (ys : List String) :
    ∃ post, joinWith sep (y :: ys) = y ++ post := by
  cases ys with
  | nil => exact ⟨"", by simp [joinWith]⟩
  | cons z zs =>
    exact ⟨sep ++ joinWith sep (z :: zs), by simp [joinWith, String.append_assoc]⟩

/-- Any element after a nonempty prefix of a joined list appears inside
the joined string, with everything before it on the left. -/
theorem joinWith_middle_decomp (sep : String) :
    ∀ (xs : List String) (y : String) (ys : List String), xs ≠ [] →
      ∃ pre post, joinWith sep (xs ++ y :: ys) = pre ++ (y ++ post) := by
  intro xs
  induction xs with
  | nil => intro y ys h; exact absurd rfl h
  | cons x xs' ih =>
    intro y ys _
    cases xs' with
    | nil =>
      obtain ⟨post, hpost⟩ := joinWith_cons_decomp sep y ys
      exact ⟨x ++ sep, post, by simp [joinWith, hpost, String.append_assoc]⟩
    | cons x2 xs2 =>
      obtain ⟨pre, post, hp⟩ := ih y ys (by simp)
      refine ⟨x ++ sep ++ pre, post, ?_⟩
      simp only [List.cons_append] at hp ⊢
      simp [joinWith, hp, String.append_assoc]

/-- The formatted PDF rendering contains the extracted text verbatim. -/
theorem formatPDFForAI_contains_text (content : PDFContent) (filename : String) :
    ∃ pre post, formatPDFForAI content filename = pre ++ (content.text ++ post) := by
  have hsplit :
      pdfHeaderLines content filename ++
        ["Pages: " ++ toString content.numPages, "", "--- Content ---",
          content.text, "--- End of PDF ---"] =
      (pdfHeaderLines content filename ++
        ["Pages: " ++ toString content.numPages, "", "--- Content ---"]) ++
        content.text :: ["--- End of PDF ---"] := by
    simp
  have hne :
      pdfHeaderLines content filename ++
        ["Pages: " ++ toString content.numPages, "", "--- Content ---"] ≠ [] := by
    simp
  have h := joinWith_middle_decomp "\n"
    (pdfHeaderLines content filename ++
      ["Pages: " ++ toString content.numPages, "", "--- Content ---"])
    content.text ["--- End of PDF ---"] hne
  rw [formatPDFForAI, hsplit]
  exact h

/-- Processing a part twice is the same as processing it once. -/
theorem processPart_idem (extract : PDFExtractor) (p : MessagePart) :
    processPart extract (processPart extract p) = processPart extract p := by
  cases p with
  | text t => rfl
  | toolInvocation n r => rfl
  | file url mediaType filename =>
    by_cases h : mediaType == "application/pdf"
    · cases hx : extract url <;> simp [processPart, h, hx]
    · simp [processPart, h]

/-- A part that is not a PDF file part is left unchanged. -/
theorem processPart_non_pdf (extract : PDFExtractor) (p : MessagePart)
    (h : isPDFFilePart p = false) : processPart extract p = p := by
  cases p with
  | text t => rfl
  | toolInvocation n r => rfl
  | file url mediaType filename =>
    simp only [isPDFFilePart] at h
    simp [processPart, h]

/-- Elementwise description of the processed message list. -/
theorem processMessagesWithPDF_getElem (extract : PDFExtractor)
    (messages : List ChatMessage) (i : ℕ) (m : ChatMessage)
    (h : messages[i]? = some m) :
    (processMessagesWithPDF extract messages)[i]? =
      some { m with parts := m.parts.map (processPart extract) } := by
  simp [processMessagesWithPDF, List.getElem?_map, h]

/-- Rounding to tenths keeps a rational in [5, 10]. -/
theorem round_tenths_mem (q : ℚ) (h5 : 5 ≤ q) (h10 : q ≤ 10) :
    5 ≤ (round (q * 10) : ℚ) / 10 ∧ (round (q * 10) : ℚ) / 10 ≤ 10 := by
  have h1 : (50 : ℤ) ≤ round (q * 10) := by
    rw [round_eq]
    have h : ((50 : ℤ) : ℚ) ≤ q * 10 + 1 / 2 := by push_cast; linarith
    calc (50 : ℤ) = ⌊((50 : ℤ) : ℚ)⌋ := by simp
      _ ≤ ⌊q * 10 + 1 / 2⌋ := Int.floor_mono h
  have h2 : round (q * 10) ≤ (100 : ℤ) := by
    rw [round_eq]
    have h : q * 10 + 1 / 2 ≤ (201 : ℚ) / 2 := by linarith
    calc ⌊q * 10 + 1 / 2⌋ ≤ ⌊(201 : ℚ) / 2⌋ := Int.floor_mono h
      _ = 100 := by norm_num
  constructor
  · have hc : (50 : ℚ) ≤ (round (q * 10) : ℚ) := by exact_mod_cast h1
    linarith
  · have hc : ((round (q * 10) : ℚ)) ≤ (100 : ℚ) := by exact_mod_cast h2
    linarith

/-- The clamp-then-round step of the skills tool lands in [5, 10]. -/
theorem clamp_round_bounds (s : ℚ) :
    5 ≤ (round (min 10 (max 5 s) * 10) : ℚ) / 10 ∧
      (round (min 10 (max 5 s) * 10) : ℚ) / 10 ≤ 10 :=
  round_tenths_mem _ (le_min (by norm_num) (le_max_left 5 s)) (min_le_left _ _)

/-! ### Claim theorems -/

/-- Claim C9 (confirmed): for every input and every fixed current year,
the skill-scoring tool returns a score in [5, 10] that is an integer
number of tenths, a `yearsOfExperience` equal to
`max 0 (currentYear - graduationYear)`, and an `expectedSkillCount`
equal to `min 15 (5 + 2 * yearsOfExperience)`. -/
theorem evaluate_skills_bounds (currentYear graduationYear : ℤ)
    (skills : List String) :
    (5 ≤ (evaluateSkills currentYear graduationYear skills).score ∧
      (evaluateSkills currentYear graduationYear skills).score ≤ 10) ∧
    (∃ n : ℤ, (evaluateSkills currentYear graduationYear skills).score = (n : ℚ) / 10) ∧
    (evaluateSkills currentYear graduationYear skills).yearsOfExperience =
      max 0 (currentYear - graduationYear) ∧
    (evaluateSkills currentYear graduationYear skills).expectedSkillCount =
      min 15 (5 + 2 * (evaluateSkills currentYear graduationYear skills).yearsOfExperience) := by
  refine ⟨⟨(clamp_round_bounds _).1, (clamp_round_bounds _).2⟩, ⟨_, rfl⟩, rfl, ?_⟩
  show min 15 (5 + max 0 (currentYear - graduationYear) * 2) =
    min 15 (5 + 2 * max 0 (currentYear - graduationYear))
  ring_nf

/-- Claim C6 (confirmed): every `application/pdf` file part is replaced,
at its position (the parts are mapped pointwise, so positions are
preserved), by a single text part — the formatted extraction, which
contains the extracted text verbatim, when the collaborator succeeds,
and a placeholder containing the part's filename when it throws — while
every non-PDF part passes through unchanged. The first conjunct holds
for an arbitrary (also always-throwing) extractor, so one failing part
never aborts the processing of the other parts or messages. -/
theorem pdf_part_replacement (extract : PDFExtractor)
    (messages : List ChatMessage) :
    (∀ (i : ℕ) (m : ChatMessage), messages[i]? = some m →
      (processMessagesWithPDF extract messages)[i]? =
        some { m with parts := m.parts.map (processPart extract) }) ∧
    (∀ url filename c, extract url = Except.ok c →
      processPart extract (.file url "application/pdf" filename) =
        .text (formatPDFForAI c (filenameOrDefault filename)) ∧
      ∃ pre post,
        formatPDFForAI c (filenameOrDefault filename) = pre ++ (c.text ++ post)) ∧
    (∀ url filename, extract url = Except.error () →
      processPart extract (.file url "application/pdf" filename) =
        .text (pdfFailurePlaceholder (filenameOrDefault filename)) ∧
      ∃ pre post,
        pdfFailurePlaceholder (filenameOrDefault filename) =
          pre ++ (filenameOrDefault filename ++ post)) ∧
    (∀ p, isPDFFilePart p = false → processPart extract p = p) := by
  refine ⟨fun i m h => processMessagesWithPDF_getElem extract messages i m h,
    fun url filename c hok => ⟨by simp [processPart, hok], ?_⟩,
    fun url filename herr => ⟨by simp [processPart, herr], ?_⟩,
    fun p h => processPart_non_pdf extract p h⟩
  · exact formatPDFForAI_contains_text c (filenameOrDefault filename)
  · exact ⟨"[PDF Document: ", "] (Unable to extract content)",
      by simp [pdfFailurePlaceholder, String.append_assoc]⟩

/-- Witness for C6 at concrete inputs: a one-message turn with one PDF
file part, processed with a succeeding and with a throwing extractor. -/
theorem pdf_part_replacement_witness :
    (processMessagesWithPDF okExtractor [pdfMsg])[0]? =
      some { pdfMsg with parts := pdfMsg.parts.map (processPart okExtractor) } ∧
    processPart errExtractor (.file "u" "application/pdf" (some "cv.pdf")) =
      .text (pdfFailurePlaceholder (filenameOrDefault (some "cv.pdf"))) :=
  ⟨(pdf_part_replacement okExtractor [pdfMsg]).1 0 pdfMsg rfl,
    ((pdf_part_replacement errExtractor []).2.2.1 "u" (some "cv.pdf") rfl).1⟩

/-- Claim C7 (confirmed): the attachment pre-processor is idempotent —
on a message list with no `application/pdf` file parts it is the
identity, and composing it with itself equals a single application on
any input (with the same extraction collaborator). -/
theorem pdf_idempotent (extract : PDFExtractor) (messages : List ChatMessage) :
    ((∀ m ∈ messages, ∀ p ∈ m.parts, isPDFFilePart p = false) →
      processMessagesWithPDF extract messages = messages) ∧
    processMessagesWithPDF extract (processMessagesWithPDF extract messages) =
      processMessagesWithPDF extract messages := by
  constructor
  · intro h
    unfold processMessagesWithPDF
    have step : ∀ m ∈ messages,
        ({ m with parts := m.parts.map (processPart extract) } : ChatMessage) = m := by
      intro m hm
      have hp : m.parts.map (processPart extract) = m.parts := by
        calc m.parts.map (processPart extract) = m.parts.map id :=
              List.map_congr_left fun p hp => processPart_non_pdf extract p (h m hm p hp)
          _ = m.parts := List.map_id m.parts
      rw [hp]
    calc messages.map (fun m => { m with parts := m.parts.map (processPart extract) })
        = messages.map id := List.map_congr_left fun m hm => step m hm
      _ = messages := List.map_id messages
  · unfold processMessagesWithPDF
    rw [List.map_map]
    apply List.map_congr_left
    intro m _
    show ({ { m with parts := m.parts.map (processPart extract) } with
      parts := (m.parts.map (processPart extract)).map (processPart extract) } : ChatMessage) = _
    have hp : (m.parts.map (processPart extract)).map (processPart extract) =
        m.parts.map (processPart extract) := by
      rw [List.map_map]
      exact List.map_congr_left fun p _ => processPart_idem extract p
    rw [hp]

/-- Witness for C7 at concrete inputs: a PDF-free one-message list is a
fixed point, and re-processing a processed list is a no-op. -/
theorem pdf_idempotent_witness :
    processMessagesWithPDF errExtractor [helloMsg] = [helloMsg] ∧
    processMessagesWithPDF errExtractor
        (processMessagesWithPDF errExtractor [pdfMsg]) =
      processMessagesWithPDF errExtractor [pdfMsg] :=
  ⟨(pdf_idempotent errExtractor [helloMsg]).1 (by decide),
    (pdf_idempotent errExtractor [pdfMsg]).2⟩

/-- Claim C10 (confirmed): the attachment pre-processor preserves
everything except the converted parts — the output list has the same
length (and, being a pointwise map, the same order), each output message
keeps its id, role and metadata and only has its parts mapped, each
message's part count is unchanged, and every non-PDF part sits unchanged
at its original position. -/
theorem pdf_frame (extract : PDFExtractor) (messages : List ChatMessage) :
    (processMessagesWithPDF extract messages).length = messages.length ∧
    ∀ (i : ℕ) (m : ChatMessage), messages[i]? = some m →
      (processMessagesWithPDF extract messages)[i]? =
        some { m with parts := m.parts.map (processPart extract) } ∧
      (m.parts.map (processPart extract)).length = m.parts.length ∧
      ∀ (j : ℕ) (p : MessagePart), m.parts[j]? = some p → isPDFFilePart p = false →
        (m.parts.map (processPart extract))[j]? = some p := by
  refine ⟨by simp [processMessagesWithPDF], fun i m h => ⟨
    processMessagesWithPDF_getElem extract messages i m h,
    List.length_map m.parts (processPart extract), fun j p hp hnp => ?_⟩⟩
  simp [List.getElem?_map, hp, processPart_non_pdf extract p hnp]

/-- Witness for C10 at concrete inputs: a turn with one PDF message and
a turn with one text-only message. -/
theorem pdf_frame_witness :
    (processMessagesWithPDF okExtractor [pdfMsg])[0]? =
      some { pdfMsg with parts := pdfMsg.parts.map (processPart okExtractor) } ∧
    (helloMsg.parts.map (processPart okExtractor))[0]? = some (.text "hello") :=
  ⟨((pdf_frame okExtractor [pdfMsg]).2 0 pdfMsg rfl).1,
    ((pdf_frame okExtractor [helloMsg]).2 0 helloMsg rfl).2.2 0 (.text "hello") rfl rfl⟩

/-- Claim C4 (confirmed): in tool-approval mode the reconciler issues,
per finished message, exactly one operation — an update of that row's
parts when the id exists in the turn's input history, an insert
otherwise — and a message inserted in normal mode then replayed in
tool-approval mode with unchanged id and modified parts ends as exactly
one persisted row carrying the updated parts. -/
theorem reconciler_upsert :
    (∀ (finished ui : List ChatMessage) (chatId : String),
      (handleFinishedMessages finished ui chatId true).length = finished.length) ∧
    (∀ (finished ui : List ChatMessage) (chatId : String) (i : ℕ) (f : ChatMessage),
      finished[i]? = some f →
      ((∃ m, ui.find? (fun x => x.id == f.id) = some m) →
        (handleFinishedMessages finished ui chatId true)[i]? =
          some (DbOp.updateParts f.id f.parts)) ∧
      (ui.find? (fun x => x.id == f.id) = none →
        (handleFinishedMessages finished ui chatId true)[i]? =
          some (DbOp.insertRows [dbRowOf chatId f]))) ∧
    (∀ (m : ChatMessage) (parts2 : List MessagePart) (chatId : String)
        (ui2 : List ChatMessage),
      (ui2.find? (fun x => x.id == m.id)).isSome = true →
      applyOps (applyOps [] (handleFinishedMessages [m] [] chatId false))
          (handleFinishedMessages [{ m with parts := parts2 }] ui2 chatId true) =
        [{ id := m.id, role := m.role, parts := parts2, chatId := chatId }]) := by
  refine ⟨fun finished ui chatId => by simp [handleFinishedMessages],
    fun finished ui chatId i f hf => ⟨fun ⟨m, hm⟩ => ?_, fun hnone => ?_⟩,
    fun m parts2 chatId ui2 h => ?_⟩
  · simp [handleFinishedMessages, List.getElem?_map, hf, hm]
  · simp [handleFinishedMessages, List.getElem?_map, hf, hnone]
  · obtain ⟨m2, hm2⟩ := Option.isSome_iff_exists.mp h
    simp [handleFinishedMessages, applyOps, applyOp, hm2, dbRowOf]

/-- Witness for C4 at concrete inputs: the assistant message is inserted
in normal mode and replayed with resolved tool parts in approval mode. -/
theorem reconciler_upsert_witness :
    applyOps (applyOps [] (handleFinishedMessages [assistantMsg] [] "chat-1" false))
        (handleFinishedMessages [{ assistantMsg with parts := resolvedParts }]
          [helloMsg, assistantMsg] "chat-1" true) =
      [{ id := assistantMsg.id, role := assistantMsg.role,
         parts := resolvedParts, chatId := "chat-1" }] :=
  reconciler_upsert.2.2 assistantMsg resolvedParts "chat-1"
    [helloMsg, assistantMsg] (by decide)

/-- Claim C5 (confirmed): routing is total over intent labels —
`resume_opt` selects the resume generator, `mock_interview` the
interview generator, and every other label (including `related_topics`,
`others`, `null` and unrecognized strings) the default chat generator,
in both the LangGraph router and the legacy dispatch. -/
theorem routing_total (st : AgentState) :
    (st.intent = some "resume_opt" → routeByIntent st = "resumeOpt") ∧
    (st.intent = some "mock_interview" → routeByIntent st = "mockInterview") ∧
    (∀ s : String, st.intent = some s → s ≠ "resume_opt" →
      s ≠ "mock_interview" → routeByIntent st = "chat") ∧
    (st.intent = none → routeByIntent st = "chat") ∧
    legacyRouteByIntent { intent := "resume_opt" } = "executeResumeOptStream" ∧
    legacyRouteByIntent { intent := "mock_interview" } = "executeMockInterviewStream" ∧
    (∀ u : UserIntent, u.intent ≠ "resume_opt" → u.intent ≠ "mock_interview" →
      legacyRouteByIntent u = "executeStreamText") := by
  refine ⟨fun h => by simp [routeByIntent, h],
    fun h => by simp [routeByIntent, h],
    fun s h h1 h2 => by simp [routeByIntent, h, h1, h2],
    fun h => by simp [routeByIntent, h],
    by decide, by decide,
    fun u h1 h2 => by simp [legacyRouteByIntent, h1, h2]⟩

/-- Witness for C5 at concrete inputs: an unrecognized label routes to
the chat generator in both routers. -/
theorem routing_total_witness :
    routeByIntent { messages := [], intent := some "unknown_label" } = "chat" ∧
    legacyRouteByIntent { intent := "unknown_label" } = "executeStreamText" :=
  ⟨(routing_total { messages := [], intent := some "unknown_label" }).2.2.1
      "unknown_label" rfl (by decide) (by decide),
    (routing_total { messages := [] }).2.2.2.2.2.2
      { intent := "unknown_label" } (by decide) (by decide)⟩

/-- Claim C8 (confirmed): the routing decision is a function of the
intent label alone — two agent states (or two legacy classification
results) with the same intent label and arbitrary different confidence
values select the same generator. -/
theorem routing_confidence_independent :
    (∀ s1 s2 : AgentState, s1.intent = s2.intent →
      routeByIntent s1 = routeByIntent s2) ∧
    (∀ u1 u2 : UserIntent, u1.intent = u2.intent →
      legacyRouteByIntent u1 = legacyRouteByIntent u2) := by
  constructor
  · intro s1 s2 h
    unfold routeByIntent
    rw [h]
  · intro u1 u2 h
    unfold legacyRouteByIntent
    rw [h]

/-- Witness for C8 at concrete inputs: confidence 0 versus confidence 1
with the same label yields the same route, in both routers. -/
theorem routing_confidence_independent_witness :
    routeByIntent { messages := [], intent := some "resume_opt", confidence := 0 } =
      routeByIntent { messages := [helloMsg], intent := some "resume_opt", confidence := 1 } ∧
    legacyRouteByIntent { intent := "mock_interview", confidence := none } =
      legacyRouteByIntent { intent := "mock_interview", confidence := some 1 } :=
  ⟨routing_confidence_independent.1 _ _ rfl,
    routing_confidence_independent.2 _ _ rfl⟩

/-- Counterexample to C1 as stated: on the concrete turn with no user
message, the legacy `classifyUserIntent` returns the `others` intent
with NO confidence value — not paired with confidence 1.0. -/
theorem classify_empty_confidence_cex :
    (classifyUserIntent errClassifierLLM []).result.intent = "others" ∧
    (classifyUserIntent errClassifierLLM []).result.confidence ≠ some 1 :=
  ⟨rfl, by decide⟩

/-- Claim C1 (corrected): with no user message, or a latest user message
whose text concatenation is blank, both classifiers deterministically
return the `others` intent with zero model-invocation calls; the
LangGraph `classifyNode` pairs it with confidence 1.0, while the legacy
`classifyUserIntent` returns it with the confidence field absent. -/
theorem classify_empty_input_amended (llmU : ClassifierLLM) (llmN : NodeLLM)
    (st : AgentState)
    (h : latestUserMessage? st.messages = none ∨
      ∃ lm, latestUserMessage? st.messages = some lm ∧
        jsTrim (textOfParts lm.parts) = "") :
    classifyUserIntent llmU st.messages = ⟨{ intent := "others" }, 0⟩ ∧
    classifyNode llmN st =
      ({ intent := some "others", confidence := some 1 }, 0) := by
  rcases h with h | ⟨lm, hlm, htrim⟩
  · constructor <;> simp [classifyUserIntent, classifyNode, h]
  · constructor <;> simp [classifyUserIntent, classifyNode, hlm, htrim]

/-- Witness for (amended) C1 at concrete inputs: the empty turn. -/
theorem classify_empty_input_witness :
    classifyUserIntent errClassifierLLM [] = ⟨{ intent := "others" }, 0⟩ ∧
    classifyNode errNodeLLM { messages := [] } =
      ({ intent := some "others", confidence := some 1 }, 0) :=
  classify_empty_input_amended errClassifierLLM errNodeLLM
    { messages := [] } (Or.inl rfl)

/-- Counterexample to C2 as stated: on the concrete turn ["hello"] with
a throwing collaborator, the legacy `classifyUserIntent` returns
`related_topics` with NO confidence value (not 0.5); and with a reply
that cannot be parsed into a tool call it returns `others`, not
`related_topics`. -/
theorem classify_failure_confidence_cex :
    (classifyUserIntent errClassifierLLM [helloMsg]).result =
      { intent := "related_topics" } ∧
    (classifyUserIntent errClassifierLLM [helloMsg]).result.confidence ≠
      some (1 / 2) ∧
    (classifyUserIntent emptyReplyLLM [helloMsg]).result.intent ≠
      "related_topics" :=
  ⟨rfl, by decide, by decide⟩

/-- Claim C2 (corrected): with a nonempty latest user text, a throwing
collaborator or an unparseable reply never raises — both embeddings are
total and return a fallback result with exactly one model call. The
LangGraph `classifyNode` falls back to `related_topics` with confidence
0.5 on both failure kinds; the legacy `classifyUserIntent` returns
`related_topics` with no confidence value on a thrown error and `others`
on a reply without a `classifyIntent` tool call. Both fallback labels
route to the default chat generator, so the pipeline proceeds. -/
theorem classify_failure_fallback_amended (st : AgentState) (lm : ChatMessage)
    (hlm : latestUserMessage? st.messages = some lm)
    (htrim : jsTrim (textOfParts lm.parts) ≠ "") :
    (∀ llm : ClassifierLLM, llm (textOfParts lm.parts) = Except.error () →
      classifyUserIntent llm st.messages = ⟨{ intent := "related_topics" }, 1⟩) ∧
    (∀ (llm : ClassifierLLM) (reply : List ResponseMessage),
      llm (textOfParts lm.parts) = Except.ok reply →
      findClassifyToolCall reply = none →
      classifyUserIntent llm st.messages = ⟨{ intent := "others" }, 1⟩) ∧
    (∀ llmN : NodeLLM, llmN (textOfParts lm.parts) = Except.error () →
      classifyNode llmN st =
        ({ intent := some "related_topics", confidence := some (1 / 2),
           hasPDF := some (messagesHavePDF st.messages),
           hasResumeContent := some (hasResumeContent st.messages) }, 1)) ∧
    (∀ llmN : NodeLLM, llmN (textOfParts lm.parts) = Except.ok none →
      classifyNode llmN st =
        ({ intent := some "related_topics", confidence := some (1 / 2),
           hasPDF := some (messagesHavePDF st.messages),
           hasResumeContent := some (hasResumeContent st.messages) }, 1)) ∧
    legacyRouteByIntent { intent := "related_topics" } = "executeStreamText" ∧
    legacyRouteByIntent { intent := "others" } = "executeStreamText" ∧
    (∀ st2 : AgentState, st2.intent = some "related_topics" →
      routeByIntent st2 = "chat") := by
  have hne : (jsTrim (textOfParts lm.parts) == "") = false := by
    simpa using htrim
  refine ⟨fun llm herr => ?_, fun llm reply hok hrep => ?_,
    fun llmN herr => ?_, fun llmN hok => ?_, by decide, by decide,
    fun st2 h2 => by simp [routeByIntent, h2]⟩
  · simp [classifyUserIntent, hlm, hne, herr]
  · simp [classifyUserIntent, hlm, hne, hok, hrep]
  · simp [classifyNode, hlm, hne, herr]
  · simp [classifyNode, hlm, hne, hok]

/-- Witness for (amended) C2 at concrete inputs: the turn ["hello"] with
a throwing collaborator. -/
theorem classify_failure_fallback_witness :
    classifyUserIntent errClassifierLLM [helloMsg] =
      ⟨{ intent := "related_topics" }, 1⟩ ∧
    classifyNode errNodeLLM { messages := [helloMsg] } =
      ({ intent := some "related_topics", confidence := some (1 / 2),
         hasPDF := some (messagesHavePDF [helloMsg]),
         hasResumeContent := some (hasResumeContent [helloMsg]) }, 1) := by
  have h := classify_failure_fallback_amended { messages := [helloMsg] }
    helloMsg rfl (by decide)
  exact ⟨h.1 errClassifierLLM rfl, h.2.2.1 errNodeLLM rfl⟩

/-- Counterexample to C3 as stated: on the concrete short turn
帮我优化简历 (6 characters, below the 50-character threshold) the legacy
resume generator `executeResumeOptStream` still invokes the model
exactly once — the scripted reply is primed into the model context as a
prior assistant message, not produced without a model call. -/
theorem resume_short_model_call_cex :
    (executeResumeOptStream errExtractor [shortResumeMsg]).2 = 1 ∧
    (executeResumeOptStream errExtractor [shortResumeMsg]).1.convo =
      [⟨"user", "我想优化简历"⟩, ⟨"assistant", scriptedResumeReplyCN⟩,
        ⟨"user", "帮我优化简历"⟩] ∧
    (1 : ℕ) ≠ 0 :=
  ⟨rfl, rfl, by decide⟩

/-- Claim C3 (corrected): when no user message reaches the 50-character
resume threshold, only the LangGraph `resumeOptNode` short-circuits to
the scripted prompt-for-more-information reply with zero model calls;
the legacy `executeResumeOptStream` instead primes the scripted exchange
into the context (without binding the skills tool) and still invokes the
model exactly once. -/
theorem resume_short_input_amended :
    (∀ (extract : PDFExtractor) (llm : InvokeLLM) (st : AgentState),
      st.hasResumeContent = false →
      resumeOptNode extract llm st =
        ({ response := some scriptedResumeReplyEN }, 0)) ∧
    (∀ (extract : PDFExtractor) (messages : List ChatMessage),
      hasResumeContent (processMessagesWithPDF extract messages) = false →
      executeResumeOptStream extract messages =
        (⟨[⟨"user", "我想优化简历"⟩, ⟨"assistant", scriptedResumeReplyCN⟩,
           ⟨"user",
            match (processMessagesWithPDF extract messages).getLast? with
            | some m => textOfParts m.parts
            | none => ""⟩], false⟩, 1)) := by
  constructor
  · intro extract llm st h
    simp [resumeOptNode, h]
  · intro extract messages h
    simp [executeResumeOptStream, h]

/-- Witness for (amended) C3 at concrete inputs: the short turn
帮我优化简历 under both generators. -/
theorem resume_short_input_witness :
    resumeOptNode errExtractor okInvokeLLM
        { messages := [shortResumeMsg], hasResumeContent := false } =
      ({ response := some scriptedResumeReplyEN }, 0) ∧
    executeResumeOptStream errExtractor [shortResumeMsg] =
      (⟨[⟨"user", "我想优化简历"⟩, ⟨"assistant", scriptedResumeReplyCN⟩,
         ⟨"user",
          match (processMessagesWithPDF errExtractor [shortResumeMsg]).getLast? with
          | some m => textOfParts m.parts
          | none => ""⟩], false⟩, 1) :=
  ⟨resume_short_input_amended.1 errExtractor okInvokeLLM
      { messages := [shortResumeMsg], hasResumeContent := false } rfl,
    resume_short_input_amended.2 errExtractor [shortResumeMsg] (by decide)⟩

end Chatbot
